import Mathlib

set_option maxRecDepth 8000
set_option maxHeartbeats 1000000

/- Lets `decide` evaluate concrete rational arithmetic (the kernel
   unfolds these regardless; the attribute only affects elaboration). -/
attribute [local semireducible] Rat.add Rat.mul Rat.inv

/- Shallow embedding of `netlify/functions/process-invoice.js` of the
   wild-octave-invoice repository.  The source file concatenates three
   variants of the Netlify function; the claims reference the first
   ("Debug Version", embedded below as namespace `V1`) and the third
   ("Azure Only Version (Reliable)", embedded as namespace `V3`).
   JavaScript IEEE-754 numbers are modelled as exact rationals (ℚ),
   JavaScript strings as Lean `String`/`List Char` (the inputs involved
   are ASCII).  JavaScript falsy-defaulting (`x || d`) on numbers,
   strings and optional fields is modelled by `jsNum`, `jsStr`, `jsOrQ`,
   `jsOrS`: `0`, `""`, and an absent field select the default. -/

/- `q || d` for a JS number `q`. -/
def jsNum (q d : ℚ) : ℚ := if q = 0 then d else q

/- `s || d` for a JS string `s`. -/
def jsStr (s d : String) : String := if s = "" then d else s

/- `o?.valueNumber || d` for an optional numeric field. -/
def jsOrQ (o : Option ℚ) (d : ℚ) : ℚ :=
  match o with
  | none => d
  | some v => jsNum v d

/- `o?.content || d` for an optional string field. -/
def jsOrS (o : Option String) (d : String) : String :=
  match o with
  | none => d
  | some s => jsStr s d

/- JS whitespace class (`\s`, and the characters `String.prototype.trim`
   removes) restricted to the ASCII range. -/
def wsChar (c : Char) : Bool :=
  c == ' ' || c == '\t' || c == '\n' || c == '\r' || c == '\x0b' || c == '\x0c'

/- `String.prototype.trim` on a character list. -/
def jsTrimL (cs : List Char) : List Char :=
  ((cs.dropWhile wsChar).reverse.dropWhile wsChar).reverse

def jsTrim (s : String) : String := (jsTrimL s.toList).asString

/- `String.prototype.toLowerCase` (ASCII). -/
def lowerStr (s : String) : String := (s.toList.map Char.toLower).asString

/- `needle` occurs at the head of `hay`. -/
def subAt : List Char → List Char → Bool
  | [], _ => true
  | _ :: _, [] => false
  | a :: as, b :: bs => a == b && subAt as bs

def hasSubL (needle : List Char) : List Char → Bool
  | [] => needle.isEmpty
  | c :: cs => subAt needle (c :: cs) || hasSubL needle cs

/- `hay.toLowerCase().includes(needle)` for a lowercase literal `needle`. -/
def lcHas (hay needle : String) : Bool :=
  hasSubL needle.toList (lowerStr hay).toList

/- `line.match(/^\d/)` as a Boolean. -/
def startsDigit (s : String) : Bool :=
  match s.toList with
  | c :: _ => c.isDigit
  | [] => false

/- `line.match(/^\$/)` as a Boolean. -/
def startsDollar (s : String) : Bool :=
  match s.toList with
  | c :: _ => c == '$'
  | [] => false

/- The pattern `\d{2}\/\d{2}\/\d{4}` matches at the head of the list. -/
def datePatAt : List Char → Bool
  | a :: b :: s1 :: c :: d :: s2 :: e :: f :: g :: h :: _ =>
      a.isDigit && b.isDigit && s1 == '/' && c.isDigit && d.isDigit && s2 == '/' &&
      e.isDigit && f.isDigit && g.isDigit && h.isDigit
  | _ => false

/- `line.match(/\d{2}\/\d{2}\/\d{4}/)` as a Boolean (unanchored search). -/
def hasDatePat : List Char → Bool
  | [] => false
  | c :: cs => datePatAt (c :: cs) || hasDatePat cs

/- Value of a decimal digit string (used for `parseInt` of a digit run and
   for the integer part of `parseFloat`). -/
def digitsToNat (ds : List Char) : Nat :=
  ds.foldl (fun n c => 10 * n + (c.toNat - 48)) 0

/- `parseFloat` of `ip ++ "." ++ fp` where `ip`/`fp` are digit runs. -/
def parseDecQ (ip fp : List Char) : ℚ :=
  (digitsToNat ip : ℚ) + (digitsToNat fp : ℚ) / ((10 : ℚ) ^ fp.length)

def digitChar (n : Nat) : Char :=
  match n with
  | 0 => '0' | 1 => '1' | 2 => '2' | 3 => '3' | 4 => '4'
  | 5 => '5' | 6 => '6' | 7 => '7' | 8 => '8' | _ => '9'

/- Decimal rendering of a natural number (JS number-to-string for the
   integer counters interpolated into template literals).  The recursion
   is structural on a fuel argument so that the kernel can evaluate it;
   `n + 1` units of fuel always suffice since the value shrinks by a
   factor of 10 each step. -/
def natToDecCharsAux : Nat → Nat → List Char
  | 0, _ => []
  | fuel + 1, n =>
    if n < 10 then [digitChar n]
    else natToDecCharsAux fuel (n / 10) ++ [digitChar (n % 10)]

def natToDecChars (n : Nat) : List Char := natToDecCharsAux (n + 1) n

def natToDec (n : Nat) : String := (natToDecChars n).asString

/- `text.split('\n')` (JavaScript split on a literal separator). -/
def splitNl : List Char → List (List Char)
  | [] => [[]]
  | c :: rest =>
    if c = '\n' then [] :: splitNl rest
    else
      match splitNl rest with
      | h :: t => (c :: h) :: t
      | [] => [[c]]

/- Character class `[\d,]` of the third variant's price regex. -/
def isDC (c : Char) : Bool := c.isDigit || c == ','

/- Character class `[\d.]` of the first variant's description-strip regex. -/
def isDD (c : Char) : Bool := c.isDigit || c == '.'

/- Remainder of the input after the regex fragment `[\d,]+\.?\d*` matches
   greedily at the head (the head is in `[\d,]` at every use site). -/
def afterNum3 (cs : List Char) : List Char :=
  match cs.dropWhile isDC with
  | '.' :: t => t.dropWhile Char.isDigit
  | r => r

/- `line.replace(/\$?[\d,]+\.?\d*/g, '')`: the third variant's
   description-strip.  The scanner walks the string left to right; a match
   needs at least one `[\d,]` character, optionally preceded by `$`; on
   failure the character is kept and the scan advances one position. -/
def strip3Aux : Nat → List Char → List Char
  | 0, _ => []
  | _ + 1, [] => []
  | fuel + 1, c :: cs =>
    if c = '$' then
      match cs with
      | d :: ds =>
        if isDC d then strip3Aux fuel (afterNum3 (d :: ds))
        else c :: strip3Aux fuel (d :: ds)
      | [] => [c]
    else if isDC c then strip3Aux fuel (afterNum3 (c :: cs))
    else c :: strip3Aux fuel cs

/- The scanner consumes at least one character per step, so `cs.length`
   units of fuel always reach the end of the input. -/
def strip3 (cs : List Char) : List Char := strip3Aux cs.length cs

/- `parseFloat(p.replace(/[$,]/g, ''))` for a match of `\$?[\d,]+\.?\d*`
   whose `[\d,]+\.?\d*` part starts at `cs`; `none` models `NaN` (the
   match contained no digit at all, e.g. `","`). -/
def val3 (cs : List Char) : Option ℚ :=
  let ip := cs.takeWhile isDC
  let fp := match cs.dropWhile isDC with
    | '.' :: t => t.takeWhile Char.isDigit
    | _ => []
  let digs := ip.filter Char.isDigit
  if digs.isEmpty && fp.isEmpty then none
  else some (parseDecQ digs fp)

/- `line.match(/\$?([\d,]+\.?\d*)/g)` followed by
   `.map(p => parseFloat(p.replace(/[$,]/g, '')))`: the list of all the
   matched prices, in order; `none` entries are `NaN`. -/
def allNums3Aux : Nat → List Char → List (Option ℚ)
  | 0, _ => []
  | _ + 1, [] => []
  | fuel + 1, c :: cs =>
    if c = '$' then
      match cs with
      | d :: ds =>
        if isDC d then val3 (d :: ds) :: allNums3Aux fuel (afterNum3 (d :: ds))
        else allNums3Aux fuel (d :: ds)
      | [] => []
    else if isDC c then val3 (c :: cs) :: allNums3Aux fuel (afterNum3 (c :: cs))
    else allNums3Aux fuel cs

def allNums3 (cs : List Char) : List (Option ℚ) := allNums3Aux cs.length cs

/- `parseFloat(m.replace('$', ''))` for a match `m` of `\$?(\d+\.?\d*)`
   whose digit part starts at `cs` (the head of `cs` is a digit). -/
def val1 (cs : List Char) : ℚ :=
  let ip := cs.takeWhile Char.isDigit
  let fp := match cs.dropWhile Char.isDigit with
    | '.' :: t => t.takeWhile Char.isDigit
    | _ => []
  parseDecQ ip fp

/- First match of `/\$?(\d+\.?\d*)/g` in the line, as its parsed value:
   the first variant's `prices[0]`. -/
def firstNum1 : List Char → Option ℚ
  | [] => none
  | c :: cs =>
    if c = '$' then
      match cs with
      | d :: _ => if d.isDigit then some (val1 cs) else firstNum1 cs
      | [] => none
    else if c.isDigit then some (val1 (c :: cs))
    else firstNum1 cs

/- `line.replace(/\$?[\d.]+/g, '')`: the first variant's description-strip. -/
def strip1Aux : Nat → List Char → List Char
  | 0, _ => []
  | _ + 1, [] => []
  | fuel + 1, c :: cs =>
    if c = '$' then
      match cs with
      | d :: ds =>
        if isDD d then strip1Aux fuel ((d :: ds).dropWhile isDD)
        else c :: strip1Aux fuel (d :: ds)
      | [] => [c]
    else if isDD c then strip1Aux fuel ((c :: cs).dropWhile isDD)
    else c :: strip1Aux fuel cs

def strip1 (cs : List Char) : List Char := strip1Aux cs.length cs

/- Leftmost match of `/(\d+)\s*x?\s*(.+)/i` with JS backtracking semantics:
   `tryC` iterates the second `\s*` from its greedy length down, `tryX`
   tries the optional `x`/`X` (present first), `tryA` iterates the first
   `\s*` down, `tryD` iterates the digit capture `(\d+)` down, and
   `searchQty` advances the start position.  The result is
   `(parseInt(m[1]), m[2])`. -/
def tryC (r : List Char) : Nat → Option (List Char)
  | 0 =>
    match r with
    | [] => none
    | x :: xs => some (x :: xs)
  | b + 1 =>
    match r.drop (b + 1) with
    | [] => tryC r b
    | x :: xs => some (x :: xs)

def tryB (r : List Char) : Option (List Char) :=
  tryC r (r.takeWhile wsChar).length

def tryX (r2 : List Char) : Option (List Char) :=
  match r2 with
  | c :: r3 =>
    if c == 'x' || c == 'X' then
      match tryB r3 with
      | some z => some z
      | none => tryB r2
    else tryB r2
  | [] => tryB []

def tryA (rest : List Char) : Nat → Option (List Char)
  | 0 => tryX rest
  | a + 1 =>
    match tryX (rest.drop (a + 1)) with
    | some z => some z
    | none => tryA rest a

def tryTail (rest : List Char) : Option (List Char) :=
  tryA rest (rest.takeWhile wsChar).length

def tryD (cs : List Char) : Nat → Option (Nat × List Char)
  | 0 => none
  | d + 1 =>
    match tryTail (cs.drop (d + 1)) with
    | some r => some (digitsToNat (cs.take (d + 1)), r)
    | none => tryD cs d

def matchQAt (cs : List Char) : Option (Nat × List Char) :=
  tryD cs (cs.takeWhile Char.isDigit).length

def searchQty : List Char → Option (Nat × List Char)
  | [] => none
  | c :: cs =>
    match matchQAt (c :: cs) with
    | some r => some r
    | none => searchQty cs

structure Supplier where
  name : String
  address : String
  abn : String
deriving DecidableEq

structure InvoiceMeta where
  number : String
  date : String
  due_date : String
  po_number : String
deriving DecidableEq

structure Totals where
  subtotal_ex_gst : ℚ
  gst_amount : ℚ
  total_inc_gst : ℚ
deriving DecidableEq

structure LineItem where
  line_number : Nat
  product_code : String
  description : String
  quantity : ℚ
  unit_cost : ℚ
  line_total_ex_gst : ℚ
  gst_amount : ℚ
  line_total_inc_gst : ℚ
  unit : String
deriving DecidableEq

/- The canonical invoice shape produced by every extraction path.  The
   first variant's objects carry no `extraction_method` field; its
   constructors below set it to `""`. -/
structure Invoice where
  supplier : Supplier
  invoice : InvoiceMeta
  line_items : List LineItem
  totals : Totals
  extraction_method : String
deriving DecidableEq

/- One element of `fields.Items.valueArray`: the fields of
   `item.valueObject` that the mappers read (`none` = field absent,
   covering `item.valueObject || {}` as all-absent). -/
structure AzureItem where
  Quantity : Option ℚ
  UnitPrice : Option ℚ
  Amount : Option ℚ
  ProductCode : Option String
  Description : Option String
  Unit : Option String
deriving DecidableEq

structure FileRec where
  filename : String
deriving DecidableEq

namespace V1

/- The placeholder of `extractLineItems` for an empty Azure item array. -/
def emptyPlaceholder : LineItem :=
  { line_number := 1, product_code := "",
    description := "No line items detected by Azure", quantity := 1,
    unit_cost := 0, line_total_ex_gst := 0, gst_amount := 0,
    line_total_inc_gst := 0, unit := "each" }

def mkItem (index : Nat) (a : AzureItem) : LineItem :=
  let quantity := jsOrQ a.Quantity 1
  let unitPrice := jsOrQ a.UnitPrice 0
  let lineTotal := jsOrQ a.Amount (quantity * unitPrice)
  { line_number := index + 1,
    product_code := jsOrS a.ProductCode "",
    description := jsOrS a.Description ("Item " ++ natToDec (index + 1)),
    quantity := quantity,
    unit_cost := unitPrice,
    line_total_ex_gst := lineTotal,
    gst_amount := lineTotal * (1 / 10),
    line_total_inc_gst := lineTotal * (11 / 10),
    unit := jsOrS a.Unit "each" }

def extractGo (index : Nat) : List AzureItem → List LineItem
  | [] => []
  | a :: rest => mkItem index a :: extractGo (index + 1) rest

/- `extractLineItems` of the first variant. -/
def extractLineItems (azureItems : List AzureItem) : List LineItem :=
  if azureItems.isEmpty then [emptyPlaceholder] else extractGo 0 azureItems

/- `categorizeProduct` of the first variant. -/
def categorizeProduct (description : String) : String :=
  if description = "" then "Groceries"
  else
    let desc := lowerStr description
    let incl := fun (kw : String) => hasSubL kw.toList desc.toList
    if incl "organic" || incl "bio" then "Organic"
    else if incl "vitamin" || incl "supplement" then "Supplements"
    else if incl "bulk" || incl "25kg" || incl "20kg" then "Bulk"
    else if incl "cream" || incl "oil" || incl "soap" then "Cosmetics"
    else "Groceries"

/- `getMarkupForCategory`: `markups[category] || 0.40`. -/
def getMarkupForCategory (category : String) : ℚ :=
  if category = "Organic" then 45 / 100
  else if category = "Supplements" then 50 / 100
  else if category = "Bulk" then 35 / 100
  else if category = "Cosmetics" then 55 / 100
  else if category = "Groceries" then 40 / 100
  else 40 / 100

/- `{...item, category, markup, retailPrice}` of the first variant's
   `applyFallbackLogic`: the spread is modelled by the `base` field. -/
structure EnhItem where
  base : LineItem
  category : String
  markup : ℚ
  retailPrice : ℚ
deriving DecidableEq

structure EnhInvoice where
  supplier : Supplier
  invoice : InvoiceMeta
  line_items : List EnhItem
  totals : Totals
  extraction_method : String
  processing_notes : Option (List String)
deriving DecidableEq

def enhanceItem (item : LineItem) : EnhItem :=
  let category := categorizeProduct item.description
  let markupPercent := getMarkupForCategory category
  let retailPrice := item.unit_cost * (1 + markupPercent)
  { base := item, category := category, markup := 1 + markupPercent,
    retailPrice := retailPrice }

/- `applyFallbackLogic` of the first variant: note that `retailPrice` is
   `unit_cost * (1 + markupPercent)` with no GST factor. -/
def applyFallbackLogic (azureData : Invoice) : EnhInvoice :=
  { supplier := azureData.supplier, invoice := azureData.invoice,
    line_items := azureData.line_items.map enhanceItem,
    totals := azureData.totals,
    extraction_method := azureData.extraction_method,
    processing_notes := none }

end V1

namespace V3

/- `categorizeProduct` of the third variant. -/
def categorizeProduct (description : String) : String :=
  if description = "" then "Groceries"
  else
    let desc := lowerStr description
    let incl := fun (kw : String) => hasSubL kw.toList desc.toList
    if incl "organic" || incl "bio" || incl "certified" then "Organic"
    else if incl "vitamin" || incl "supplement" || incl "mineral" || incl "probiotic" ||
        incl "capsule" || incl "tablet" then "Supplements"
    else if incl "bulk" || incl "25kg" || incl "20kg" || incl "wholesale" ||
        incl "sack" || incl "bag" then "Bulk"
    else if incl "cream" || incl "oil" || incl "soap" || incl "shampoo" ||
        incl "lotion" || incl "balm" then "Cosmetics"
    else "Groceries"

/- `BUSINESS_RULES.markup_rules[category]`.  The source indexes a fixed
   five-key object; `categorizeProduct` only ever produces those five
   keys, so the (unreachable) final else is mapped to the Groceries rate. -/
def markup_rules (category : String) : ℚ :=
  if category = "Organic" then 45 / 100
  else if category = "Supplements" then 50 / 100
  else if category = "Bulk" then 35 / 100
  else if category = "Cosmetics" then 55 / 100
  else 40 / 100

/- `{...item, category, markup, retailPrice, suggested_markup_percent,
   review_required, notes}` of `applyBusinessRules`. -/
structure EnhItem where
  base : LineItem
  category : String
  markup : ℚ
  retailPrice : ℚ
  suggested_markup_percent : ℚ
  review_required : Bool
  notes : List String
deriving DecidableEq

structure EnhInvoice where
  supplier : Supplier
  invoice : InvoiceMeta
  line_items : List EnhItem
  totals : Totals
  extraction_method : String
  processing_notes : List String
deriving DecidableEq

def enhanceItem (item : LineItem) : EnhItem :=
  let category := categorizeProduct item.description
  let markupPercent := markup_rules category
  let retailPriceExGst := item.unit_cost * (1 + markupPercent)
  let retailPriceIncGst := retailPriceExGst * (11 / 10)
  { base := item, category := category, markup := 1 + markupPercent,
    retailPrice := retailPriceIncGst,
    suggested_markup_percent := markupPercent * 100,
    review_required :=
      (item.product_code == "") || decide (item.product_code.length < 2) ||
      (item.unit_cost == 0),
    notes :=
      (if item.product_code = "" ∨ item.product_code.length < 2 then
        ["Missing product code"] else []) ++
      (if item.unit_cost = 0 then ["No unit cost detected"] else []) ++
      (if item.description.length < 5 then ["Description unclear"] else []) }

/- `applyBusinessRules` of the third variant: `retailPrice` is the
   GST-inclusive `unit_cost * (1 + markupPercent) * 1.10`. -/
def applyBusinessRules (azureData : Invoice) : EnhInvoice :=
  let enhanced := azureData.line_items.map enhanceItem
  { supplier := azureData.supplier, invoice := azureData.invoice,
    line_items := enhanced, totals := azureData.totals,
    extraction_method := azureData.extraction_method,
    processing_notes :=
      ["Data extracted with Azure Document Intelligence (" ++
         azureData.extraction_method ++ ")",
       "Wild Octave Organics business rules applied",
       natToDec enhanced.length ++ " items processed",
       natToDec (enhanced.filter (fun it => it.review_required)).length ++
         " items flagged for review"] }

def mkItem (index : Nat) (a : AzureItem) : LineItem :=
  let description :=
    jsOrS a.Description (jsOrS a.ProductCode ("Item " ++ natToDec (index + 1)))
  let quantity := jsOrQ a.Quantity 1
  let unitPrice := jsOrQ a.UnitPrice 0
  let lineTotal := jsOrQ a.Amount (quantity * unitPrice)
  { line_number := index + 1,
    product_code := jsOrS a.ProductCode "",
    description := description,
    quantity := quantity,
    unit_cost := unitPrice,
    line_total_ex_gst := lineTotal,
    gst_amount := lineTotal * (1 / 10),
    line_total_inc_gst := lineTotal * (11 / 10),
    unit := jsOrS a.Unit "each" }

def extractGo (index : Nat) : List AzureItem → List LineItem
  | [] => []
  | a :: rest => mkItem index a :: extractGo (index + 1) rest

/- `extractLineItemsFromAzure` of the third variant: an empty (or absent)
   item array yields the EMPTY list. -/
def extractLineItemsFromAzure (azureItems : List AzureItem) : List LineItem :=
  if azureItems.isEmpty then [] else extractGo 0 azureItems

/- `text.split('\n').filter(line => line.trim().length > 2)`. -/
def linesOf (text : String) : List String :=
  ((splitNl text.toList).map List.asString).filter
    (fun l => decide (2 < (jsTrim l).length))

/- The supplier-line condition of the third variant's
   `parseTextToInvoiceData` (applied to the trimmed line). -/
def suppCond (t : String) : Bool :=
  decide (5 < t.length) && !startsDigit t && !lcHas t "invoice" &&
  !lcHas t "tax" && !lcHas t "total" && !lcHas t "date" &&
  !startsDollar t && !hasDatePat t.toList

def suppScan : List String → Option String
  | [] => none
  | l :: rest =>
    let t := jsTrim l
    if suppCond t then some t else suppScan rest

/- The supplier loop: `for (let i = 0; i < Math.min(10, lines.length); i++)`
   with the first qualifying trimmed line winning. -/
def findSupplier (lines : List String) : String :=
  (suppScan (lines.take 10)).getD "Unknown Supplier"

/- The header/metadata skip condition of the item loop. -/
def skipLine (line : String) : Bool :=
  lcHas line "total" || lcHas line "subtotal" || lcHas line "gst" ||
  lcHas line "tax" || lcHas line "invoice" || lcHas line "date" ||
  lcHas line "abn" || decide (line.length < 3)

/- `prices.find(p => p > 1 && p < 10000)`; `none` entries are `NaN`, for
   which both comparisons are false. -/
def findMain : List (Option ℚ) → Option ℚ
  | [] => none
  | o :: rest =>
    match o with
    | some p => if 1 < p ∧ p < 10000 then some p else findMain rest
    | none => findMain rest

/- Item construction for one matched line of the third variant's parser
   (`items.length` = `itemCount`).  The `processedLines` set of the source
   only ever receives the index of the line being processed after its item
   is pushed, so its `has(i)` guard is always false and is omitted. -/
def mkTextItem (itemCount : Nat) (line : String) (mainPrice : ℚ) : LineItem :=
  let stripped := jsTrimL (strip3 line.toList)
  let description :=
    if stripped.isEmpty then "Line Item ".toList ++ natToDecChars (itemCount + 1)
    else stripped
  match searchQty description with
  | some (q, r2) =>
    { line_number := itemCount + 1, product_code := "",
      description := (jsTrimL r2).asString,
      quantity := (q : ℚ), unit_cost := mainPrice / (q : ℚ),
      line_total_ex_gst := mainPrice, gst_amount := mainPrice * (1 / 10),
      line_total_inc_gst := mainPrice * (11 / 10), unit := "each" }
  | none =>
    { line_number := itemCount + 1, product_code := "",
      description := description.asString,
      quantity := 1, unit_cost := mainPrice / 1,
      line_total_ex_gst := mainPrice, gst_amount := mainPrice * (1 / 10),
      line_total_inc_gst := mainPrice * (11 / 10), unit := "each" }

def processLine (acc : List LineItem) (l : String) : List LineItem :=
  let line := jsTrim l
  if skipLine line then acc
  else
    match findMain (allNums3 line.toList) with
    | some mainPrice => acc ++ [mkTextItem acc.length line mainPrice]
    | none => acc

def itemsGo (acc : List LineItem) : List String → List LineItem
  | [] => acc
  | l :: rest => itemsGo (processLine acc l) rest

def textPlaceholder : LineItem :=
  { line_number := 1, product_code := "",
    description := "Text extracted but no clear line items found",
    quantity := 1, unit_cost := 0, line_total_ex_gst := 0, gst_amount := 0,
    line_total_inc_gst := 0, unit := "each" }

/- `parseTextToInvoiceData` of the third variant. -/
def parseTextToInvoiceData (text : String) : Invoice :=
  let lines := linesOf text
  let supplier := findSupplier lines
  let items0 := itemsGo [] lines
  let items := if items0.isEmpty then [textPlaceholder] else items0
  let totalExGst := (items.map (fun it => it.line_total_ex_gst)).sum
  let totalGst := (items.map (fun it => it.gst_amount)).sum
  { supplier := { name := supplier, address := "", abn := "" },
    invoice := { number := "", date := "", due_date := "", po_number := "" },
    line_items := items,
    totals := { subtotal_ex_gst := totalExGst, gst_amount := totalGst,
                total_inc_gst := totalExGst + totalGst },
    extraction_method := "Text Parsing" }

end V3

namespace V1

/- `text.split('\n').filter(line => line.trim().length > 0)`. -/
def linesOf (text : String) : List String :=
  ((splitNl text.toList).map List.asString).filter
    (fun l => decide (0 < (jsTrim l).length))

/- The supplier predicate of the first variant's `parseTextToInvoiceData`
   (applied to the raw line; only `invoice` and `total` are stop words). -/
def suppCond (l : String) : Bool :=
  decide (5 < l.length) && !startsDigit l && !lcHas l "invoice" && !lcHas l "total"

/- `lines.find(...) || 'Unknown Supplier'` over ALL lines. -/
def findSupplier (lines : List String) : String :=
  (lines.find? suppCond).getD "Unknown Supplier"

/- Item construction for one matched line of the first variant's parser. -/
def mkTextItem (itemCount : Nat) (line : String) (price : ℚ) : LineItem :=
  let d := jsTrimL (strip1 line.toList)
  { line_number := itemCount + 1, product_code := "",
    description := if d.isEmpty then "Invoice Item" else d.asString,
    quantity := 1, unit_cost := price, line_total_ex_gst := price,
    gst_amount := price * (1 / 10), line_total_inc_gst := price * (11 / 10),
    unit := "each" }

def processLine (acc : List LineItem) (line : String) : List LineItem :=
  match firstNum1 line.toList with
  | some price =>
    if 1 < price ∧ price < 10000 then acc ++ [mkTextItem acc.length line price]
    else acc
  | none => acc

def itemsGo (acc : List LineItem) : List String → List LineItem
  | [] => acc
  | l :: rest => itemsGo (processLine acc l) rest

def textPlaceholder : LineItem :=
  { line_number := 1, product_code := "",
    description := "Text extracted but no items identified",
    quantity := 1, unit_cost := 0, line_total_ex_gst := 0, gst_amount := 0,
    line_total_inc_gst := 0, unit := "each" }

/- `parseTextToInvoiceData` of the first variant (its result object has no
   `extraction_method` property; the field is set to `""`). -/
def parseTextToInvoiceData (text : String) : Invoice :=
  let lines := linesOf text
  let supplier := findSupplier lines
  let items0 := itemsGo [] lines
  let items := if items0.isEmpty then [textPlaceholder] else items0
  { supplier := { name := supplier, address := "", abn := "" },
    invoice := { number := "", date := "", due_date := "", po_number := "" },
    line_items := items,
    totals :=
      { subtotal_ex_gst := (items.map (fun it => it.line_total_ex_gst)).sum,
        gst_amount := (items.map (fun it => it.gst_amount)).sum,
        total_inc_gst := (items.map (fun it => it.line_total_inc_gst)).sum },
    extraction_method := "" }

/- `createMinimalFallback` of the first variant. -/
def createMinimalFallback (file : FileRec) : Invoice :=
  { supplier := { name := "Processing Error", address := "", abn := "" },
    invoice := { number := "", date := "", due_date := "", po_number := "" },
    line_items :=
      [{ line_number := 1, product_code := "",
         description := "Unable to process " ++ file.filename ++
           " - try a clearer image or different format",
         quantity := 1, unit_cost := 0, line_total_ex_gst := 0,
         gst_amount := 0, line_total_inc_gst := 0, unit := "each" }],
    totals := { subtotal_ex_gst := 0, gst_amount := 0, total_inc_gst := 0 },
    extraction_method := "" }

/- `tryBasicOCR`: the `prebuilt-read` call is an external effect, modelled
   by its outcome `ocrContent` (`none` = the call threw). -/
def tryBasicOCR (ocrContent : Option String) (file : FileRec) : Invoice :=
  match ocrContent with
  | some content =>
    if 10 < content.length then parseTextToInvoiceData content
    else createMinimalFallback file
  | none => createMinimalFallback file

/- Outcome of the two network calls inside `enhanceWithAbacus`:
   `ok` = a prediction result that parsed as JSON, `parseFail` /
   `respParseFail` = a `result` / `response` field whose `JSON.parse`
   threw, `badFormat` = neither field present, `netError` = an axios
   error / non-success endpoint response / timeout. -/
inductive AbacusOutcome where
  | ok (enhanced : EnhInvoice)
  | parseFail
  | respParseFail
  | badFormat
  | netError
deriving DecidableEq

/- `enhanceWithAbacus` of the first variant: parse failures return the
   local fallback directly, the other failures throw. -/
def enhanceWithAbacus (o : AbacusOutcome) (azureData : Invoice) :
    Except Unit EnhInvoice :=
  match o with
  | .ok e => .ok e
  | .parseFail => .ok (applyFallbackLogic azureData)
  | .respParseFail => .ok (applyFallbackLogic azureData)
  | .badFormat => .error ()
  | .netError => .error ()

def abacusFails (o : AbacusOutcome) : Bool :=
  match o with
  | .ok _ => false
  | _ => true

/- The enhancement try/catch of the handler (`ABACUS_CONFIG.apiKey` is
   truthy in this variant because of its hard-coded default, but the
   check is embedded as written). -/
def enhanceStep (abacusKeySet : Bool) (o : AbacusOutcome) (azureData : Invoice) :
    EnhInvoice :=
  if abacusKeySet then
    match enhanceWithAbacus o azureData with
    | .ok e => e
    | .error _ => applyFallbackLogic azureData
  else applyFallbackLogic azureData

structure UIItem where
  product : String
  quantity : ℚ
  unit : String
  costExGST : ℚ
  category : String
  markup : ℚ
  retailPrice : ℚ
deriving DecidableEq

structure UISummary where
  totalItems : Nat
  totalCost : ℚ
  totalRetail : ℚ
deriving DecidableEq

structure UIResult where
  supplier : String
  items : List UIItem
  processingNotes : List String
  summary : UISummary
deriving DecidableEq

def toUIItem (it : EnhItem) : UIItem :=
  { product := it.base.description, quantity := it.base.quantity,
    unit := jsStr it.base.unit "each", costExGST := it.base.unit_cost,
    category := jsStr it.category "Groceries",
    markup := jsNum it.markup (165 / 100),
    retailPrice :=
      jsNum it.retailPrice (it.base.unit_cost * jsNum it.markup (165 / 100)) }

/- `formatForUI` of the first variant. -/
def formatForUI (e : EnhInvoice) : UIResult :=
  let items := e.line_items.map toUIItem
  { supplier := jsStr e.supplier.name "Unknown Supplier",
    items := items,
    processingNotes := e.processing_notes.getD ["Processed with hybrid system"],
    summary :=
      { totalItems := items.length,
        totalCost := (items.map (fun it => jsNum it.costExGST 0)).sum,
        totalRetail := (items.map (fun it => jsNum it.retailPrice 0)).sum } }

inductive RespBody where
  | empty
  | methodNotAllowed
  | credsError (endpointSet keySet : Bool)
  | ok (result : UIResult)
  | serverError (message : String)
deriving DecidableEq

structure Response where
  statusCode : Nat
  body : RespBody
deriving DecidableEq

/- The request together with the outcomes of the external calls the
   handler makes: `parseResult` is `parseMultipartForm` (`error` = it
   threw, `ok none` = no `file` part), `azureResult` is `extractWithAzure`
   (`error` = it threw), `ocrContent` is the `prebuilt-read` content inside
   `tryBasicOCR`, and `abacus` is the Abacus.ai exchange. -/
structure Env where
  httpMethod : String
  azureEndpoint : Bool
  azureKey : Bool
  parseResult : Except String (Option FileRec)
  azureResult : Except Unit Invoice
  ocrContent : Option String
  abacusKeySet : Bool
  abacus : AbacusOutcome

/- `exports.handler` of the first variant. -/
def handler (env : Env) : Response :=
  if env.httpMethod = "OPTIONS" then { statusCode := 200, body := .empty }
  else if env.httpMethod ≠ "POST" then
    { statusCode := 405, body := .methodNotAllowed }
  else if !(env.azureEndpoint && env.azureKey) then
    { statusCode := 500, body := .credsError env.azureEndpoint env.azureKey }
  else
    match env.parseResult with
    | .error msg => { statusCode := 500, body := .serverError msg }
    | .ok none => { statusCode := 500, body := .serverError "No file uploaded" }
    | .ok (some file) =>
      let azureData :=
        match env.azureResult with
        | .ok inv => inv
        | .error _ => tryBasicOCR env.ocrContent file
      let enhancedData := enhanceStep env.abacusKeySet env.abacus azureData
      { statusCode := 200, body := .ok (formatForUI enhancedData) }

/- Modelled from the spec: the same pipeline with the local rule engine
   (`applyFallbackLogic`) applied unconditionally in place of the remote
   enhancement attempt — the comparison target for the claim that on any
   enhancement failure "control falls through unconditionally to this
   local rule engine". -/
def handlerLocal (env : Env) : Response :=
  if env.httpMethod = "OPTIONS" then { statusCode := 200, body := .empty }
  else if env.httpMethod ≠ "POST" then
    { statusCode := 405, body := .methodNotAllowed }
  else if !(env.azureEndpoint && env.azureKey) then
    { statusCode := 500, body := .credsError env.azureEndpoint env.azureKey }
  else
    match env.parseResult with
    | .error msg => { statusCode := 500, body := .serverError msg }
    | .ok none => { statusCode := 500, body := .serverError "No file uploaded" }
    | .ok (some file) =>
      let azureData :=
        match env.azureResult with
        | .ok inv => inv
        | .error _ => tryBasicOCR env.ocrContent file
      let enhancedData := applyFallbackLogic azureData
      { statusCode := 200, body := .ok (formatForUI enhancedData) }

end V1

/- Concrete inputs used by the claim theorems, their witnesses and
   counterexamples. -/

def sampleText : String :=
  "ABC Organics Pty Ltd\nInvoice #123\nDate: 01/01/2024\nApples $5.00"

def gstLine : String := "GST Registered Suppliers"

def pastaItem : LineItem :=
  { line_number := 1, product_code := "AB", description := "Pasta",
    quantity := 1, unit_cost := 10, line_total_ex_gst := 10, gst_amount := 1,
    line_total_inc_gst := 11, unit := "each" }

/- An invoice with a single Groceries item of unit cost 10. -/
def invTen : Invoice :=
  { supplier := { name := "S", address := "", abn := "" },
    invoice := { number := "", date := "", due_date := "", po_number := "" },
    line_items := [pastaItem],
    totals := { subtotal_ex_gst := 10, gst_amount := 1, total_inc_gst := 11 },
    extraction_method := "Azure Invoice Model" }

def sampleFile : FileRec := { filename := "invoice.pdf" }

def azSample : AzureItem :=
  { Quantity := some 2, UnitPrice := some 3, Amount := none,
    ProductCode := some "AB", Description := some "Organic Oats",
    Unit := some "kg" }

def azNegQty : AzureItem :=
  { Quantity := some (-1), UnitPrice := some 2, Amount := none,
    ProductCode := none, Description := some "Credit note", Unit := none }

/- A POST request with the Azure endpoint env var missing. -/
def envMissingCreds : V1.Env :=
  { httpMethod := "POST", azureEndpoint := false, azureKey := true,
    parseResult := .ok (some sampleFile), azureResult := .error (),
    ocrContent := none, abacusKeySet := true, abacus := .netError }

/- A POST request with credentials configured whose extraction, basic OCR
   and enhancement calls all fail. -/
def envDegraded : V1.Env :=
  { httpMethod := "POST", azureEndpoint := true, azureKey := true,
    parseResult := .ok (some sampleFile), azureResult := .error (),
    ocrContent := none, abacusKeySet := true, abacus := .netError }

/- A POST request whose extraction succeeds and whose enhancement call
   times out. -/
def envAbacusFail : V1.Env :=
  { httpMethod := "POST", azureEndpoint := true, azureKey := true,
    parseResult := .ok (some sampleFile), azureResult := .ok invTen,
    ocrContent := none, abacusKeySet := true, abacus := .netError }

/- ===== Helper lemmas ===== -/

theorem mem_jsTrimL {c : Char} {l : List Char} (h : c ∈ jsTrimL l) : c ∈ l := by
  unfold jsTrimL at h
  simp only [List.mem_reverse] at h
  exact (List.dropWhile_sublist _).subset
    ((List.mem_reverse).mp ((List.dropWhile_sublist _).subset h))

theorem not_digit_of_not_isDC {c : Char} (h : isDC c = false) : c.isDigit = false := by
  unfold isDC at h
  exact (Bool.or_eq_false_iff.mp h).1

theorem ws_of_digit {c : Char} (h : c.isDigit = true) : wsChar c = false := by
  cases hw : wsChar c
  · rfl
  · exfalso
    simp only [wsChar, Bool.or_eq_true, beq_iff_eq] at hw
    rcases hw with ((((h1 | h1) | h1) | h1) | h1) | h1 <;> subst h1 <;>
      exact absurd h (by decide)

theorem xX_of_digit {c : Char} (h : c.isDigit = true) : (c == 'x' || c == 'X') = false := by
  have h1 : c ≠ 'x' := fun e => by subst e; exact absurd h (by decide)
  have h2 : c ≠ 'X' := fun e => by subst e; exact absurd h (by decide)
  simp [h1, h2]

theorem strip3Aux_no_digit (fuel : Nat) (cs : List Char) :
    ∀ c ∈ strip3Aux fuel cs, c.isDigit = false := by
  induction fuel, cs using strip3Aux.induct with
  | case1 cs => intro x hx; simp [strip3Aux] at hx
  | case2 f => intro x hx; simp [strip3Aux] at hx
  | case3 f c tail hd ih =>
    intro x hx
    rw [strip3Aux.eq_def] at hx
    simp [hd] at hx
    exact ih x hx
  | case4 f c tail hd ih =>
    intro x hx
    rw [strip3Aux.eq_def] at hx
    simp [hd] at hx
    rcases hx with h1 | h1
    · subst h1; decide
    · exact ih x h1
  | case5 f =>
    intro x hx
    rw [strip3Aux.eq_def] at hx
    simp at hx
    subst hx; decide
  | case6 f c cs hne hc ih =>
    intro x hx
    rw [strip3Aux.eq_def] at hx
    simp [hne, hc] at hx
    exact ih x hx
  | case7 f c cs hne hc ih =>
    intro x hx
    rw [strip3Aux.eq_def] at hx
    simp [hne, hc] at hx
    rcases hx with h1 | h1
    · subst h1; exact not_digit_of_not_isDC (by simpa using hc)
    · exact ih x h1

theorem strip3_no_digit (cs : List Char) : ∀ c ∈ strip3 cs, c.isDigit = false :=
  strip3Aux_no_digit cs.length cs

theorem matchQAt_no_digit {c : Char} (cs : List Char) (h : c.isDigit = false) :
    matchQAt (c :: cs) = none := by
  unfold matchQAt
  rw [List.takeWhile_cons, if_neg (by simp [h])]
  rfl

theorem searchQty_eq_none (cs : List Char) (h : ∀ c ∈ cs, c.isDigit = false) :
    searchQty cs = none := by
  induction cs with
  | nil => rfl
  | cons c rest ih =>
    rw [searchQty.eq_def]
    simp only [matchQAt_no_digit rest (h c (by simp))]
    exact ih (fun x hx => h x (by simp [hx]))

theorem searchQty_append (A rest : List Char) (hA : ∀ c ∈ A, c.isDigit = false) :
    searchQty (A ++ rest) = searchQty rest := by
  induction A with
  | nil => rfl
  | cons a A' ih =>
    rw [List.cons_append, searchQty.eq_def]
    simp only [matchQAt_no_digit _ (hA a (by simp))]
    exact ih (fun x hx => hA x (by simp [hx]))

theorem tryTail_single {x : Char} (hx : x.isDigit = true) : tryTail [x] = some [x] := by
  have h1 := ws_of_digit hx
  have h2 := xX_of_digit hx
  unfold tryTail
  rw [List.takeWhile_cons, if_neg (by simp [h1])]
  show tryX [x] = some [x]
  unfold tryX
  show (if (x == 'x' || x == 'X') = true then
      (match tryB [] with | some z => some z | none => tryB [x])
    else tryB [x]) = some [x]
  rw [if_neg (by simp [h2])]
  unfold tryB
  rw [List.takeWhile_cons, if_neg (by simp [h1])]
  rfl

theorem searchQty_digits (D : List Char) (hD : ∀ c ∈ D, c.isDigit = true) :
    searchQty D = none ∨
      (2 ≤ D.length ∧
        searchQty D = some (digitsToNat (D.take (D.length - 1)), D.drop (D.length - 1))) := by
  cases D with
  | nil => exact Or.inl rfl
  | cons d D' =>
    have htw : (d :: D').takeWhile Char.isDigit = d :: D' :=
      List.takeWhile_eq_self_iff.mpr hD
    have hm : matchQAt (d :: D') = tryD (d :: D') (D'.length + 1) := by
      unfold matchQAt
      rw [htw]
      rfl
    have hdrop : (d :: D').drop (D'.length + 1) = [] := List.drop_length _
    have h1 : tryD (d :: D') (D'.length + 1) = tryD (d :: D') D'.length := by
      rw [tryD]
      rw [hdrop]
      rfl
    cases D' with
    | nil =>
      refine Or.inl ?_
      rw [searchQty.eq_def]
      simp only [hm, h1]
      rfl
    | cons e D'' =>
      refine Or.inr ⟨by simp, ?_⟩
      obtain ⟨x, hx⟩ : ∃ x, (d :: e :: D'').drop (D''.length + 1) = [x] := by
        have hl : ((d :: e :: D'').drop (D''.length + 1)).length = 1 := by
          rw [List.length_drop]
          simp
        exact List.length_eq_one.mp hl
      have hxd : x.isDigit = true :=
        hD x (List.drop_subset _ _ (hx ▸ List.mem_singleton_self x))
      have h2 : tryD (d :: e :: D'') ((e :: D'').length) =
          some (digitsToNat ((d :: e :: D'').take (D''.length + 1)), [x]) := by
        show tryD (d :: e :: D'') (D''.length + 1) = _
        rw [tryD]
        rw [hx, tryTail_single hxd]
      rw [searchQty.eq_def]
      simp only [hm, h1, h2]
      rw [show (d :: e :: D'').length - 1 = D''.length + 1 by simp]
      rw [hx]

theorem digitChar_isDigit (m : Nat) : (digitChar m).isDigit = true := by
  unfold digitChar
  split <;> decide

theorem digitChar_toNat (m : Nat) (h : m < 10) : (digitChar m).toNat - 48 = m := by
  interval_cases m <;> decide

theorem natToDecCharsAux_digits (fuel : Nat) :
    ∀ n, ∀ c ∈ natToDecCharsAux fuel n, c.isDigit = true := by
  induction fuel with
  | zero => intro n c hc; cases hc
  | succ f ih =>
    intro n c hc
    rw [natToDecCharsAux] at hc
    by_cases h10 : n < 10
    · rw [if_pos h10] at hc
      rcases List.mem_singleton.mp hc with rfl
      exact digitChar_isDigit n
    · rw [if_neg h10] at hc
      rcases List.mem_append.mp hc with h1 | h1
      · exact ih (n / 10) c h1
      · rcases List.mem_singleton.mp h1 with rfl
        exact digitChar_isDigit _

theorem natToDecChars_digits (n : Nat) : ∀ c ∈ natToDecChars n, c.isDigit = true :=
  natToDecCharsAux_digits (n + 1) n

theorem natToDecCharsAux_round (fuel : Nat) :
    ∀ n, n < fuel → digitsToNat (natToDecCharsAux fuel n) = n := by
  induction fuel with
  | zero => intro n h; omega
  | succ f ih =>
    intro n h
    rw [natToDecCharsAux]
    by_cases h10 : n < 10
    · rw [if_pos h10]
      show 10 * 0 + ((digitChar n).toNat - 48) = n
      rw [digitChar_toNat n h10]
      omega
    · rw [if_neg h10]
      unfold digitsToNat at ih ⊢
      rw [List.foldl_append]
      show 10 * _ + ((digitChar (n % 10)).toNat - 48) = n
      rw [ih (n / 10) (by omega), digitChar_toNat (n % 10) (by omega)]
      omega

theorem digitsToNat_natToDecChars (n : Nat) : digitsToNat (natToDecChars n) = n :=
  natToDecCharsAux_round (n + 1) n (by omega)

theorem natToDecChars_len1 (n : Nat) (h : n < 10) : (natToDecChars n).length = 1 := by
  unfold natToDecChars
  rw [natToDecCharsAux, if_pos h]
  rfl

theorem natToDecCharsAux_irrel (n : Nat) :
    ∀ f1 f2, n < f1 → n < f2 → natToDecCharsAux f1 n = natToDecCharsAux f2 n := by
  induction n using Nat.strong_induction_on with
  | _ n ih =>
    intro f1 f2 h1 h2
    cases f1 with
    | zero => omega
    | succ a =>
      cases f2 with
      | zero => omega
      | succ b =>
        rw [natToDecCharsAux, natToDecCharsAux]
        by_cases h10 : n < 10
        · rw [if_pos h10, if_pos h10]
        · rw [if_neg h10, if_neg h10,
            ih (n / 10) (by omega) a b (by omega) (by omega)]

theorem natToDecChars_eq_rec (m : Nat) (h : ¬m < 10) :
    natToDecChars m = natToDecChars (m / 10) ++ [digitChar (m % 10)] := by
  show natToDecCharsAux (m + 1) m = natToDecCharsAux (m / 10 + 1) (m / 10) ++ _
  rw [natToDecCharsAux, if_neg h,
    natToDecCharsAux_irrel (m / 10) m (m / 10 + 1) (by omega) (by omega)]

/- The quantity captured by `/(\d+)\s*x?\s*(.+)/i` from a description of
   the form `"Line Item N"` is positive whenever the regex matches. -/
theorem searchQty_lineItem (n : Nat) (q : Nat) (r : List Char)
    (h : searchQty ("Line Item ".toList ++ natToDecChars (n + 1)) = some (q, r)) :
    1 ≤ q := by
  rw [searchQty_append _ _ (by decide)] at h
  rcases searchQty_digits (natToDecChars (n + 1)) (natToDecChars_digits _) with h1 | ⟨h1, h2⟩
  · rw [h1] at h
    cases h
  · rw [h2] at h
    injection h with h3
    injection h3 with h4 h5
    by_cases h6 : n + 1 < 10
    · rw [natToDecChars_len1 _ h6] at h1
      omega
    · rw [natToDecChars_eq_rec _ h6] at h4 h1
      rw [List.length_append, List.length_singleton] at h4
      rw [Nat.add_sub_cancel, List.take_left] at h4
      rw [digitsToNat_natToDecChars] at h4
      omega

theorem qty_pos_general (n : Nat) (ds : List Char)
    (hds : ∀ c ∈ ds, c.isDigit = false) (q : Nat) (r : List Char)
    (h : searchQty
      (if ds.isEmpty then "Line Item ".toList ++ natToDecChars (n + 1) else ds) =
      some (q, r)) :
    1 ≤ q := by
  by_cases he : ds.isEmpty
  · rw [if_pos he] at h
    exact searchQty_lineItem n q r h
  · rw [if_neg he] at h
    rw [searchQty_eq_none ds hds] at h
    cases h

theorem mkTextItem_quantity_pos (n : Nat) (line : String) (p : ℚ) :
    0 < (V3.mkTextItem n line p).quantity := by
  unfold V3.mkTextItem
  dsimp only
  split
  · rename_i q r2 hq
    show (0 : ℚ) < (q : ℚ)
    have h1 : 1 ≤ q :=
      qty_pos_general n _ (fun c hc => strip3_no_digit _ c (mem_jsTrimL hc)) q r2 hq
    exact_mod_cast Nat.lt_of_lt_of_le Nat.zero_lt_one h1
  · norm_num

theorem mkTextItem_ex (n : Nat) (line : String) (p : ℚ) :
    (V3.mkTextItem n line p).line_total_ex_gst = p := by
  unfold V3.mkTextItem
  dsimp only
  split <;> rfl

theorem findMain_range (l : List (Option ℚ)) (p : ℚ) (h : V3.findMain l = some p) :
    1 < p ∧ p < 10000 := by
  induction l with
  | nil => cases h
  | cons o rest ih =>
    cases o with
    | none => exact ih (by simpa [V3.findMain] using h)
    | some v =>
      rw [V3.findMain] at h
      split at h
      · injection h with h1
        subst h1
        assumption
      · exact ih h

theorem processLine3_mem (acc : List LineItem) (l : String) (it : LineItem)
    (h : it ∈ V3.processLine acc l) :
    it ∈ acc ∨ ∃ p, V3.findMain (allNums3 (jsTrim l).toList) = some p ∧
      it = V3.mkTextItem acc.length (jsTrim l) p := by
  simp only [V3.processLine] at h
  split at h
  · exact Or.inl h
  · split at h
    · rename_i p hp
      rcases List.mem_append.mp h with h1 | h1
      · exact Or.inl h1
      · exact Or.inr ⟨p, hp, List.mem_singleton.mp h1⟩
    · exact Or.inl h

theorem itemsGo3_inv (P : LineItem → Prop)
    (hP : ∀ n (l : String) p, V3.findMain (allNums3 (jsTrim l).toList) = some p →
      P (V3.mkTextItem n (jsTrim l) p)) :
    ∀ (lines : List String) (acc : List LineItem), (∀ it ∈ acc, P it) →
      ∀ it ∈ V3.itemsGo acc lines, P it := by
  intro lines
  induction lines with
  | nil => intro acc hacc it hit; exact hacc it hit
  | cons l rest ih =>
    intro acc hacc it hit
    rw [V3.itemsGo] at hit
    refine ih (V3.processLine acc l) ?_ it hit
    intro it' hit'
    rcases processLine3_mem acc l it' hit' with h1 | ⟨p, hp, he⟩
    · exact hacc it' h1
    · subst he
      exact hP acc.length l p hp

theorem processLine1_mem (acc : List LineItem) (l : String) (it : LineItem)
    (h : it ∈ V1.processLine acc l) :
    it ∈ acc ∨ ∃ p, firstNum1 l.toList = some p ∧ (1 < p ∧ p < 10000) ∧
      it = V1.mkTextItem acc.length l p := by
  simp only [V1.processLine] at h
  split at h
  · rename_i p hp
    split at h
    · rename_i hrange
      rcases List.mem_append.mp h with h1 | h1
      · exact Or.inl h1
      · exact Or.inr ⟨p, hp, hrange, List.mem_singleton.mp h1⟩
    · exact Or.inl h
  · exact Or.inl h

theorem itemsGo1_inv (P : LineItem → Prop)
    (hP : ∀ n (l : String) p, firstNum1 l.toList = some p → 1 < p → p < 10000 →
      P (V1.mkTextItem n l p)) :
    ∀ (lines : List String) (acc : List LineItem), (∀ it ∈ acc, P it) →
      ∀ it ∈ V1.itemsGo acc lines, P it := by
  intro lines
  induction lines with
  | nil => intro acc hacc it hit; exact hacc it hit
  | cons l rest ih =>
    intro acc hacc it hit
    rw [V1.itemsGo] at hit
    refine ih (V1.processLine acc l) ?_ it hit
    intro it' hit'
    rcases processLine1_mem acc l it' hit' with h1 | ⟨p, hp, ⟨hr1, hr2⟩, he⟩
    · exact hacc it' h1
    · subst he
      exact hP acc.length l p hp hr1 hr2

theorem extractGo1_len (az : List AzureItem) : ∀ idx, (V1.extractGo idx az).length = az.length := by
  induction az with
  | nil => intro idx; rfl
  | cons a rest ih =>
    intro idx
    rw [V1.extractGo, List.length_cons, List.length_cons, ih (idx + 1)]

theorem extractGo3_len (az : List AzureItem) : ∀ idx, (V3.extractGo idx az).length = az.length := by
  induction az with
  | nil => intro idx; rfl
  | cons a rest ih =>
    intro idx
    rw [V3.extractGo, List.length_cons, List.length_cons, ih (idx + 1)]

theorem extractGo1_mem (az : List AzureItem) :
    ∀ idx it, it ∈ V1.extractGo idx az → ∃ j a, a ∈ az ∧ it = V1.mkItem j a := by
  induction az with
  | nil => intro idx it h; cases h
  | cons a rest ih =>
    intro idx it h
    rw [V1.extractGo] at h
    rcases List.mem_cons.mp h with h1 | h1
    · exact ⟨idx, a, by simp, h1⟩
    · obtain ⟨j, b, hb, he⟩ := ih (idx + 1) it h1
      exact ⟨j, b, by simp [hb], he⟩

theorem extractGo3_mem (az : List AzureItem) :
    ∀ idx it, it ∈ V3.extractGo idx az → ∃ j a, a ∈ az ∧ it = V3.mkItem j a := by
  induction az with
  | nil => intro idx it h; cases h
  | cons a rest ih =>
    intro idx it h
    rw [V3.extractGo] at h
    rcases List.mem_cons.mp h with h1 | h1
    · exact ⟨idx, a, by simp, h1⟩
    · obtain ⟨j, b, hb, he⟩ := ih (idx + 1) it h1
      exact ⟨j, b, by simp [hb], he⟩

theorem extractGo1_zip (az : List AzureItem) :
    ∀ idx p, p ∈ az.zip (V1.extractGo idx az) → ∃ j, p.2 = V1.mkItem j p.1 := by
  induction az with
  | nil => intro idx p h; cases h
  | cons a rest ih =>
    intro idx p h
    rw [V1.extractGo, List.zip_cons_cons] at h
    rcases List.mem_cons.mp h with h1 | h1
    · subst h1; exact ⟨idx, rfl⟩
    · exact ih (idx + 1) p h1

theorem suppScan_spec (ls : List String) :
    V3.suppScan ls = none ∨
      ∃ l ∈ ls, V3.suppScan ls = some (jsTrim l) ∧ V3.suppCond (jsTrim l) = true := by
  induction ls with
  | nil => exact Or.inl rfl
  | cons l rest ih =>
    by_cases hc : V3.suppCond (jsTrim l)
    · refine Or.inr ⟨l, by simp, ?_, hc⟩
      simp only [V3.suppScan]
      rw [if_pos hc]
    · have he : V3.suppScan (l :: rest) = V3.suppScan rest := by
        simp only [V3.suppScan]
        rw [if_neg hc]
      rcases ih with h1 | ⟨l', hl', h2, h3⟩
      · exact Or.inl (he ▸ h1)
      · exact Or.inr ⟨l', by simp [hl'], he ▸ h2, h3⟩

theorem enhanceStep_fails (k : Bool) (o : V1.AbacusOutcome) (h : V1.abacusFails o = true)
    (d : Invoice) : V1.enhanceStep k o d = V1.applyFallbackLogic d := by
  cases o <;> cases k <;> simp [V1.enhanceStep, V1.enhanceWithAbacus] <;>
    exact absurd h (by simp [V1.abacusFails])

/- ===== Claim theorems ===== -/

/-- C2 counterexample: on the empty structured item array, the third
variant's mapper `extractLineItemsFromAzure` returns a list whose length
is not 1 — it returns the empty list, not a single placeholder item. -/
theorem C2_counterexample : (V3.extractLineItemsFromAzure []).length ≠ 1 := by
  decide

/-- C2 (amended): on an empty structured item array the first variant's
`extractLineItems` returns exactly one explanatory placeholder item, while
the third variant's `extractLineItemsFromAzure` returns the empty list. -/
theorem C2_empty_mapper :
    V1.extractLineItems [] = [V1.emptyPlaceholder] ∧
    V1.emptyPlaceholder.description = "No line items detected by Azure" ∧
    V3.extractLineItemsFromAzure [] = [] :=
  ⟨rfl, rfl, rfl⟩

/-- C9: category classification is a deterministic function of the
description with the organic rule tested first: any description containing
"organic" (case-insensitively) is classified "Organic" in both variants,
and in particular "Organic Vitamin C" — which also contains the
Supplements keyword "vitamin" — is classified "Organic", not
"Supplements". -/
theorem C9_categorization :
    V1.categorizeProduct "Organic Vitamin C" = "Organic" ∧
    V3.categorizeProduct "Organic Vitamin C" = "Organic" ∧
    lcHas "Organic Vitamin C" "vitamin" = true ∧
    (∀ d : String, lcHas d "organic" = true → V1.categorizeProduct d = "Organic") ∧
    (∀ d : String, lcHas d "organic" = true → V3.categorizeProduct d = "Organic") := by
  refine ⟨by decide, by decide, by decide, ?_, ?_⟩
  · intro d h
    have hne : d ≠ "" := fun e => by subst e; exact absurd h (by decide)
    have h' : hasSubL "organic".toList (lowerStr d).toList = true := h
    simp only [String.toList] at h'
    unfold V1.categorizeProduct
    rw [if_neg hne]
    simp [h']
  · intro d h
    have hne : d ≠ "" := fun e => by subst e; exact absurd h (by decide)
    have h' : hasSubL "organic".toList (lowerStr d).toList = true := h
    simp only [String.toList] at h'
    unfold V3.categorizeProduct
    rw [if_neg hne]
    simp [h']

/-- C9 witness: the general organic-first rule applied at a concrete
description. -/
theorem C9_witness :
    lcHas "Organic Almonds" "organic" = true ∧
    V1.categorizeProduct "Organic Almonds" = "Organic" :=
  ⟨by decide, C9_categorization.2.2.2.1 "Organic Almonds" (by decide)⟩

/-- C10: both business-rule enhancers leave the supplier, invoice
metadata, totals and extraction-method fields of the invoice unchanged,
and every output line item retains the whole input line item (as its
`base`), only adding the category/markup/retail/review fields. -/
theorem C10_frame :
    ∀ inv : Invoice,
      (V1.applyFallbackLogic inv).supplier = inv.supplier ∧
      (V1.applyFallbackLogic inv).invoice = inv.invoice ∧
      (V1.applyFallbackLogic inv).totals = inv.totals ∧
      (V1.applyFallbackLogic inv).extraction_method = inv.extraction_method ∧
      (V1.applyFallbackLogic inv).line_items.map (fun it => it.base) = inv.line_items ∧
      (V3.applyBusinessRules inv).supplier = inv.supplier ∧
      (V3.applyBusinessRules inv).invoice = inv.invoice ∧
      (V3.applyBusinessRules inv).totals = inv.totals ∧
      (V3.applyBusinessRules inv).extraction_method = inv.extraction_method ∧
      (V3.applyBusinessRules inv).line_items.map (fun it => it.base) = inv.line_items := by
  intro inv
  refine ⟨rfl, rfl, rfl, rfl, ?_, rfl, rfl, rfl, rfl, ?_⟩
  · show (inv.line_items.map V1.enhanceItem).map (fun it => it.base) = inv.line_items
    rw [List.map_map]
    have h : ((fun it : V1.EnhItem => it.base) ∘ V1.enhanceItem) = id := funext fun _ => rfl
    rw [h, List.map_id]
  · show (inv.line_items.map V3.enhanceItem).map (fun it => it.base) = inv.line_items
    rw [List.map_map]
    have h : ((fun it : V3.EnhItem => it.base) ∘ V3.enhanceItem) = id := funext fun _ => rfl
    rw [h, List.map_id]

/-- C1 counterexample: the first variant's `applyFallbackLogic` computes
`retailPrice = unit_cost * (1 + markup)` with no GST factor: a Groceries
item of unit cost 10 gets retail price 14, not 10 × 1.40 × 1.10 = 15.40
as the claim requires of line items fed to the business-rule enhancer. -/
theorem C1_counterexample :
    (V1.applyFallbackLogic invTen).line_items.map (fun it => it.retailPrice) = [14] ∧
    (14 : ℚ) ≠ 10 * (1 + 40 / 100) * (1 + 10 / 100) := by
  constructor
  · decide
  · norm_num

/-- C1 (amended): the third variant's `applyBusinessRules` computes the
tax-inclusive retail price `unit_cost × (1 + markup) × 1.10` for every
line item — with unitCost 10 and category Groceries (markup 0.40) the
retail price is 15.40 — while the first variant's `applyFallbackLogic`
computes the tax-exclusive `unit_cost × (1 + markup)`. -/
theorem C1_retail_formula :
    (∀ inv : Invoice, ∀ eit ∈ (V3.applyBusinessRules inv).line_items,
      eit.retailPrice = eit.base.unit_cost *
        (1 + V3.markup_rules (V3.categorizeProduct eit.base.description)) * (11 / 10)) ∧
    (∀ inv : Invoice, ∀ eit ∈ (V1.applyFallbackLogic inv).line_items,
      eit.retailPrice = eit.base.unit_cost *
        (1 + V1.getMarkupForCategory (V1.categorizeProduct eit.base.description))) ∧
    (V3.applyBusinessRules invTen).line_items.map (fun it => it.retailPrice) = [77 / 5] := by
  refine ⟨?_, ?_, by decide⟩
  · intro inv eit h
    rcases List.mem_map.mp h with ⟨it, _, rfl⟩
    rfl
  · intro inv eit h
    rcases List.mem_map.mp h with ⟨it, _, rfl⟩
    rfl

/-- C1 witness: the amended retail-price formula at the concrete
Groceries item of unit cost 10 (15.40 = 77/5). -/
theorem C1_retail_formula_witness :
    V3.enhanceItem pastaItem ∈ (V3.applyBusinessRules invTen).line_items ∧
    (V3.enhanceItem pastaItem).retailPrice = (V3.enhanceItem pastaItem).base.unit_cost *
      (1 + V3.markup_rules (V3.categorizeProduct (V3.enhanceItem pastaItem).base.description)) *
      (11 / 10) :=
  ⟨by decide, C1_retail_formula.1 invTen _ (by decide)⟩

/-- C6: whenever the Abacus.ai enhancement exchange fails — network error,
timeout, unparseable result or response, or an unexpected payload shape —
the first variant's handler produces exactly the response of the pipeline
that applies the local rule engine `applyFallbackLogic` directly. -/
theorem C6_enhancement_fallback :
    ∀ env : V1.Env, V1.abacusFails env.abacus = true →
      V1.handler env = V1.handlerLocal env := by
  intro env h
  unfold V1.handler V1.handlerLocal
  simp only [enhanceStep_fails env.abacusKeySet env.abacus h]

/-- C6 witness: the equivalence at a concrete request whose enhancement
call times out. -/
theorem C6_witness : V1.handler envAbacusFail = V1.handlerLocal envAbacusFail :=
  C6_enhancement_fallback envAbacusFail (by decide)

/-- C5: for a non-empty structured item array of N items, both mappers
produce exactly N line items, each satisfying
`line_total_inc_gst = line_total_ex_gst × 1.10` and
`gst_amount = line_total_ex_gst × 0.10`. -/
theorem C5_mapper_tax :
    ∀ azureItems : List AzureItem, azureItems ≠ [] →
      (V1.extractLineItems azureItems).length = azureItems.length ∧
      (V3.extractLineItemsFromAzure azureItems).length = azureItems.length ∧
      (∀ it ∈ V1.extractLineItems azureItems,
        it.line_total_inc_gst = it.line_total_ex_gst * (11 / 10) ∧
        it.gst_amount = it.line_total_ex_gst * (1 / 10)) ∧
      (∀ it ∈ V3.extractLineItemsFromAzure azureItems,
        it.line_total_inc_gst = it.line_total_ex_gst * (11 / 10) ∧
        it.gst_amount = it.line_total_ex_gst * (1 / 10)) := by
  intro az hne
  have hne' : ¬(az.isEmpty = true) := by simp [List.isEmpty_iff, hne]
  refine ⟨?_, ?_, ?_, ?_⟩
  · unfold V1.extractLineItems
    rw [if_neg hne']
    exact extractGo1_len az 0
  · unfold V3.extractLineItemsFromAzure
    rw [if_neg hne']
    exact extractGo3_len az 0
  · intro it hit
    unfold V1.extractLineItems at hit
    rw [if_neg hne'] at hit
    obtain ⟨j, a, _, rfl⟩ := extractGo1_mem az 0 it hit
    exact ⟨rfl, rfl⟩
  · intro it hit
    unfold V3.extractLineItemsFromAzure at hit
    rw [if_neg hne'] at hit
    obtain ⟨j, a, _, rfl⟩ := extractGo3_mem az 0 it hit
    exact ⟨rfl, rfl⟩

/-- C5 witness: the mapper counts and the fixed-tax-rate equations at a
concrete one-element item array. -/
theorem C5_witness :
    [azSample] ≠ [] ∧ (V1.extractLineItems [azSample]).length = [azSample].length :=
  ⟨by decide, (C5_mapper_tax [azSample] (by decide)).1⟩

/-- C3 counterexample: a POST request with the Azure endpoint environment
variable missing — a misconfigured OCR backend — is answered with a 500
credentials error, not a 200 placeholder response. -/
theorem C3_counterexample :
    V1.handler envMissingCreds =
      { statusCode := 500, body := .credsError false true } ∧ (500 : Nat) ≠ 200 :=
  ⟨by decide, by decide⟩

/-- C3 (amended): with Azure credentials missing the handler returns 500,
but for every POST request with credentials configured whose extraction
throws, whose basic-OCR text is unrecoverable (the call throws or yields
at most 10 characters), and whose enhancement call fails, the handler
returns 200 with exactly one placeholder item with `costExGST = 0` and a
human-readable description. -/
theorem C3_degraded_placeholder :
    ∀ (env : V1.Env) (f : FileRec),
      env.httpMethod = "POST" → env.azureEndpoint = true → env.azureKey = true →
      env.parseResult = .ok (some f) → env.azureResult = .error () →
      (∀ s, env.ocrContent = some s → s.length ≤ 10) →
      V1.abacusFails env.abacus = true →
      (V1.handler env).statusCode = 200 ∧
      ∃ r : V1.UIResult, (V1.handler env).body = .ok r ∧
        r.items.length = 1 ∧
        r.items.map (fun it => it.costExGST) = [0] ∧
        r.items.map (fun it => it.product) =
          ["Unable to process " ++ f.filename ++
            " - try a clearer image or different format"] ∧
        r.supplier = "Processing Error" := by
  intro env f h1 h2 h3 h4 h5 h6 h7
  have hocr : V1.tryBasicOCR env.ocrContent f = V1.createMinimalFallback f := by
    unfold V1.tryBasicOCR
    cases hoc : env.ocrContent with
    | none => rfl
    | some s =>
      have hl := h6 s hoc
      show (if 10 < s.length then V1.parseTextToInvoiceData s
        else V1.createMinimalFallback f) = V1.createMinimalFallback f
      rw [if_neg (by omega)]
  have hh : V1.handler env =
      { statusCode := 200,
        body := .ok (V1.formatForUI (V1.applyFallbackLogic (V1.createMinimalFallback f))) } := by
    unfold V1.handler
    rw [h1, h2, h3, h4, h5]
    rw [if_neg (by decide), if_neg (by decide), if_neg (by decide)]
    show ({ statusCode := 200,
            body := V1.RespBody.ok (V1.formatForUI (V1.enhanceStep env.abacusKeySet env.abacus
              (V1.tryBasicOCR env.ocrContent f))) } : V1.Response) = _
    rw [enhanceStep_fails _ _ h7, hocr]
  rw [hh]
  refine ⟨rfl, V1.formatForUI (V1.applyFallbackLogic (V1.createMinimalFallback f)),
    rfl, rfl, rfl, ?_, rfl⟩
  rfl

/-- C3 witness: the degraded-but-well-formed 200 response at a concrete
request whose extraction, OCR and enhancement calls all fail. -/
theorem C3_witness :
    (V1.handler envDegraded).statusCode = 200 :=
  (C3_degraded_placeholder envDegraded sampleFile rfl rfl rfl rfl rfl
    (fun _ h => nomatch h) rfl).1

/-- C4 counterexample: neither supplier heuristic treats "gst" as a stop
keyword: the line "GST Registered Suppliers", which contains "gst"
case-insensitively and so should be rejected by the claimed keyword set,
is chosen as the supplier by the third variant's parser rather than
falling back to "Unknown Supplier". -/
theorem C4_counterexample :
    (V3.parseTextToInvoiceData gstLine).supplier.name = gstLine ∧
    lcHas gstLine "gst" = true ∧
    gstLine ≠ "Unknown Supplier" :=
  ⟨by decide, by decide, by decide⟩

/-- C4 (amended): the third variant's supplier heuristic scans the first
10 (trimmed, length > 2) lines and picks the first whose trimmed form is
longer than 5 characters, does not start with a digit or a dollar sign,
contains none of "invoice", "tax", "total", "date" (case-insensitively,
"gst" is not checked) and no dd/dd/dddd date pattern, defaulting to
"Unknown Supplier"; on the spec's example text both variants pick
"ABC Organics Pty Ltd". -/
theorem C4_supplier_heuristic :
    (V3.parseTextToInvoiceData sampleText).supplier.name = "ABC Organics Pty Ltd" ∧
    (V1.parseTextToInvoiceData sampleText).supplier.name = "ABC Organics Pty Ltd" ∧
    (∀ text : String,
      (V3.parseTextToInvoiceData text).supplier.name = "Unknown Supplier" ∨
      ∃ l ∈ (V3.linesOf text).take 10,
        (V3.parseTextToInvoiceData text).supplier.name = jsTrim l ∧
        V3.suppCond (jsTrim l) = true) := by
  refine ⟨by decide, by decide, ?_⟩
  intro text
  have hs : (V3.parseTextToInvoiceData text).supplier.name =
      V3.findSupplier (V3.linesOf text) := rfl
  rw [hs]
  unfold V3.findSupplier
  rcases suppScan_spec ((V3.linesOf text).take 10) with h | ⟨l, hl, h2, h3⟩
  · rw [h]
    exact Or.inl rfl
  · rw [h2]
    exact Or.inr ⟨l, hl, rfl, h3⟩

/-- C7 counterexample: the structured mapper's `Quantity?.valueNumber || 1`
default only catches a missing or zero quantity: a negative Azure quantity
of -1 is passed through unchanged, producing a line item whose quantity is
not positive. -/
theorem C7_counterexample :
    (V1.extractLineItems [azNegQty]).map (fun it => it.quantity) = [-1] ∧
    ¬(0 < (-1 : ℚ)) :=
  ⟨by decide, by decide⟩

/-- C7 (amended): the structured mapper's quantity is positive whenever
every source quantity is nonnegative (missing or zero quantities default
to 1; a negative source quantity passes through), its `unit_cost` and
line total default to 0 when the source fields are missing, and every
item emitted by the third variant's text parser has positive quantity. -/
theorem C7_quantity_defaults :
    (∀ az : List AzureItem, (∀ a ∈ az, ∀ q, a.Quantity = some q → 0 ≤ q) →
      ∀ it ∈ V1.extractLineItems az, 0 < it.quantity) ∧
    (∀ az : List AzureItem, ∀ p ∈ az.zip (V1.extractLineItems az),
      (p.1.Quantity = none → p.2.quantity = 1) ∧
      (p.1.Quantity = some 0 → p.2.quantity = 1) ∧
      (p.1.UnitPrice = none → p.2.unit_cost = 0) ∧
      (p.1.Amount = none → p.1.UnitPrice = none → p.2.line_total_ex_gst = 0)) ∧
    (∀ text : String, ∀ it ∈ (V3.parseTextToInvoiceData text).line_items,
      0 < it.quantity) := by
  refine ⟨?_, ?_, ?_⟩
  · intro az h it hit
    unfold V1.extractLineItems at hit
    by_cases he : az.isEmpty
    · rw [if_pos he] at hit
      rcases List.mem_singleton.mp hit with rfl
      norm_num [V1.emptyPlaceholder]
    · rw [if_neg he] at hit
      obtain ⟨j, a, ha, rfl⟩ := extractGo1_mem az 0 it hit
      show 0 < jsOrQ a.Quantity 1
      cases hq : a.Quantity with
      | none => norm_num [jsOrQ]
      | some q =>
        have hq0 := h a ha q hq
        show 0 < (if q = 0 then (1 : ℚ) else q)
        by_cases hz : q = 0
        · rw [if_pos hz]
          norm_num
        · rw [if_neg hz]
          exact lt_of_le_of_ne hq0 (Ne.symm hz)
  · intro az p hp
    cases az with
    | nil => cases hp
    | cons a rest =>
      unfold V1.extractLineItems at hp
      rw [if_neg (by simp)] at hp
      obtain ⟨j, he⟩ := extractGo1_zip (a :: rest) 0 p hp
      rw [he]
      refine ⟨?_, ?_, ?_, ?_⟩
      · intro h; simp [V1.mkItem, h, jsOrQ]
      · intro h; simp [V1.mkItem, h, jsOrQ, jsNum]
      · intro h; simp [V1.mkItem, h, jsOrQ]
      · intro h h'; simp [V1.mkItem, h, h', jsOrQ]
  · intro text it hit
    have hit' : it ∈ (if (V3.itemsGo [] (V3.linesOf text)).isEmpty
        then [V3.textPlaceholder] else V3.itemsGo [] (V3.linesOf text)) := hit
    by_cases he : (V3.itemsGo [] (V3.linesOf text)).isEmpty
    · rw [if_pos he] at hit'
      rcases List.mem_singleton.mp hit' with rfl
      norm_num [V3.textPlaceholder]
    · rw [if_neg he] at hit'
      exact itemsGo3_inv (fun it => 0 < it.quantity)
        (fun n l p _ => mkTextItem_quantity_pos n (jsTrim l) p)
        (V3.linesOf text) [] (by simp) it hit'

/-- C7 witness: the positivity of mapper quantities at a concrete item
array whose quantities are nonnegative. -/
theorem C7_witness :
    (∀ it ∈ V1.extractLineItems [azSample], 0 < it.quantity) :=
  C7_quantity_defaults.1 [azSample]
    (by intro a ha q hq
        rcases List.mem_singleton.mp ha with rfl
        rw [show azSample.Quantity = some 2 from rfl] at hq
        injection hq with h
        rw [← h]
        norm_num)

/-- C8: the price filter `p > 1 && p < 10000` of both text parsers: the
line "Item $0.20" produces only the zero-cost placeholder (0.20 is
rejected), "Apples $5.00" produces one item priced 5.00, and in general
every emitted line item's detected price is either the placeholder's 0 or
lies strictly between 1 and 10000. -/
theorem C8_price_filter :
    (V1.parseTextToInvoiceData "Item $0.20").line_items = [V1.textPlaceholder] ∧
    (V1.parseTextToInvoiceData "Apples $5.00").line_items.map
      (fun it => (it.description, it.unit_cost)) = [("Apples", 5)] ∧
    (V3.parseTextToInvoiceData "Item $0.20").line_items = [V3.textPlaceholder] ∧
    (V3.parseTextToInvoiceData "Apples $5.00").line_items.map
      (fun it => (it.description, it.line_total_ex_gst, it.unit_cost)) =
      [("Apples", 5, 5)] ∧
    (∀ text : String, ∀ it ∈ (V1.parseTextToInvoiceData text).line_items,
      it.unit_cost = 0 ∨ (1 < it.unit_cost ∧ it.unit_cost < 10000)) ∧
    (∀ text : String, ∀ it ∈ (V3.parseTextToInvoiceData text).line_items,
      it.line_total_ex_gst = 0 ∨
        (1 < it.line_total_ex_gst ∧ it.line_total_ex_gst < 10000)) := by
  refine ⟨by decide, by decide, by decide, by decide, ?_, ?_⟩
  · intro text it hit
    have hit' : it ∈ (if (V1.itemsGo [] (V1.linesOf text)).isEmpty
        then [V1.textPlaceholder] else V1.itemsGo [] (V1.linesOf text)) := hit
    by_cases he : (V1.itemsGo [] (V1.linesOf text)).isEmpty
    · rw [if_pos he] at hit'
      rcases List.mem_singleton.mp hit' with rfl
      exact Or.inl rfl
    · rw [if_neg he] at hit'
      exact itemsGo1_inv (fun it => it.unit_cost = 0 ∨ (1 < it.unit_cost ∧ it.unit_cost < 10000))
        (fun n l p _ h1 h2 => Or.inr ⟨h1, h2⟩)
        (V1.linesOf text) [] (by simp) it hit'
  · intro text it hit
    have hit' : it ∈ (if (V3.itemsGo [] (V3.linesOf text)).isEmpty
        then [V3.textPlaceholder] else V3.itemsGo [] (V3.linesOf text)) := hit
    by_cases he : (V3.itemsGo [] (V3.linesOf text)).isEmpty
    · rw [if_pos he] at hit'
      rcases List.mem_singleton.mp hit' with rfl
      exact Or.inl rfl
    · rw [if_neg he] at hit'
      exact itemsGo3_inv
        (fun it => it.line_total_ex_gst = 0 ∨
          (1 < it.line_total_ex_gst ∧ it.line_total_ex_gst < 10000))
        (fun n l p hp => Or.inr (by rw [mkTextItem_ex]; exact findMain_range _ p hp))
        (V3.linesOf text) [] (by simp) it hit'

/-- C8 witness: the accepted price 5.00 at the concrete line
"Apples $5.00", via the general price filter theorem. -/
theorem C8_witness :
    V1.mkTextItem 0 "Apples $5.00" 5 ∈
      (V1.parseTextToInvoiceData "Apples $5.00").line_items ∧
    ((V1.mkTextItem 0 "Apples $5.00" 5).unit_cost = 0 ∨
      (1 < (V1.mkTextItem 0 "Apples $5.00" 5).unit_cost ∧
        (V1.mkTextItem 0 "Apples $5.00" 5).unit_cost < 10000)) :=
  ⟨by decide, C8_price_filter.2.2.2.2.1 "Apples $5.00" _ (by decide)⟩
